import Mathlib

/-!
# TWCManager core — shallow embedding and verification

A shallow embedding of the load-sharing controller in `TWCManager.py`
(RS-485 frame codec, slave registry, slave link-ready handling, the
allocator's budget computation, the web-IPC response path) together with
proofs about the embedded definitions.

Bytes are modelled as `Nat` (with `% 256` where the source truncates),
byte strings as `List Nat`, amperages and timestamps as `ℚ` (the source
uses Python floats; all values involved are exact decimals).
-/

set_option maxRecDepth 8000

namespace TWCManager

/-! ## 4.A Frame codec (`send_msg` / `unescape_msg`) -/

/-- The checksum appended by `send_msg` (lines 261-265): the 8-bit
truncated sum of every byte of the payload except the first. -/
def send_checksum (msg : List Nat) : Nat :=
  (msg.drop 1).sum % 256

/-- The in-place escaping loop of `send_msg` (lines 276-284): a literal
`0xC0` becomes `0xDB 0xDC`, a literal `0xDB` becomes `0xDB 0xDD`, the
scan index skips past the inserted byte. -/
def slip_escape : List Nat → List Nat
  | [] => []
  | b :: rest =>
      if b = 0xc0 then 0xdb :: 0xdc :: slip_escape rest
      else if b = 0xdb then 0xdb :: 0xdd :: slip_escape rest
      else b :: slip_escape rest

/-- The byte string `send_msg` puts on the wire (lines 254-291): append
the checksum, escape, wrap in `0xC0` delimiters. -/
def send_msg (msg : List Nat) : List Nat :=
  0xc0 :: slip_escape (msg ++ [send_checksum msg]) ++ [0xc0]

/-- The unescaping loop of `unescape_msg` (lines 305-325).  At a `0xDB`
the source reads `msg[i+1]`; when `0xDB` is the final byte that read is
out of range and Python raises `IndexError`, modelled as `none`.  A
`0xDB 0xDC` pair collapses to `0xC0`, a `0xDB 0xDD` pair to `0xDB`, and
any other `0xDB xx` pair is replaced by a single `0xDB` byte. -/
def unescape_core : List Nat → Option (List Nat)
  | [] => some []
  | b :: rest =>
      if b = 0xdb then
        match rest with
        | [] => none
        | c :: rest2 =>
            let r := if c = 0xdc then 0xc0 else if c = 0xdd then 0xdb else 0xdb
            (unescape_core rest2).map (fun t => r :: t)
      else (unescape_core rest).map (fun t => b :: t)

/-- Function `unescape_msg` (lines 295-329): truncate the buffer to `msgLen`, run
the unescaping loop, then strip the leading and trailing delimiter byte
(`msg[1:len(msg)-1]`). -/
def unescape_msg (msg : List Nat) (msgLen : Nat) : Option (List Nat) :=
  (unescape_core (msg.take msgLen)).map (fun m => (m.drop 1).dropLast)

/-- The receive-side checksum verification (lines 1775-1783): the 8-bit
truncated sum of `msg[1] .. msg[len-2]` must equal the final byte. -/
def rx_checksum_ok (msg : List Nat) : Bool :=
  ((msg.drop 1).dropLast.sum % 256) == msg.getD (msg.length - 1) 0

theorem unescape_core_cons_ne (b : Nat) (rest : List Nat) (h : ¬ b = 0xdb) :
    unescape_core (b :: rest) = (unescape_core rest).map (fun t => b :: t) := by
  rw [unescape_core.eq_def]
  simp [h]

theorem unescape_core_db (c : Nat) (rest : List Nat) :
    unescape_core (0xdb :: c :: rest) =
      (unescape_core rest).map
        (fun t => (if c = 0xdc then 0xc0 else if c = 0xdd then 0xdb else 0xdb) :: t) := by
  rw [unescape_core.eq_def]
  simp

/-- Unescaping distributes over an escaped chunk: the escaped image of
`m` re-collapses to `m` in front of whatever follows. -/
theorem unescape_core_slip_escape (m l : List Nat) :
    unescape_core (slip_escape m ++ l) =
      (unescape_core l).map (fun t => m ++ t) := by
  induction m with
  | nil =>
      simp only [slip_escape, List.nil_append]
      cases h : unescape_core l <;> simp
  | cons b rest ih =>
      by_cases hb : b = 0xc0
      · subst hb
        simp only [slip_escape, List.cons_append]
        norm_num
        rw [unescape_core_db]
        norm_num
        rw [ih]
        cases h : unescape_core l <;> simp
      · by_cases hb' : b = 0xdb
        · subst hb'
          simp only [slip_escape, List.cons_append]
          norm_num [hb]
          rw [unescape_core_db]
          norm_num
          rw [ih]
          cases h : unescape_core l <;> simp
        · simp only [slip_escape, if_neg hb, if_neg hb', List.cons_append]
          rw [unescape_core_cons_ne b _ hb', ih]
          cases h : unescape_core l <;> simp

/-- C1. Round trip through the codec: framing any payload `f` with
`send_msg` and decoding the framed bytes with `unescape_msg` yields
exactly `f` followed by its checksum byte, and the receive-side
verification of the decoded bytes succeeds. -/
theorem send_msg_unescape_roundtrip (f : List Nat) :
    unescape_msg (send_msg f) (send_msg f).length = some (f ++ [send_checksum f])
      ∧ rx_checksum_ok (f ++ [send_checksum f]) = true := by
  constructor
  · unfold unescape_msg send_msg
    rw [List.take_length, List.cons_append]
    rw [unescape_core_cons_ne 0xc0 _ (by norm_num)]
    rw [unescape_core_slip_escape]
    rw [show unescape_core [0xc0] = some [0xc0] by rfl]
    simp [List.dropLast_concat]
  · unfold rx_checksum_ok send_checksum
    have hlen : (f ++ [(f.drop 1).sum % 256]).length - 1 = f.length := by
      simp
    rw [hlen]
    have hget : (f ++ [(f.drop 1).sum % 256]).getD f.length 0 = (f.drop 1).sum % 256 := by
      simp [List.getD, List.getElem?_append_right]
    rw [hget]
    have hdrop : ((f ++ [(f.drop 1).sum % 256]).drop 1).dropLast = f.drop 1 := by
      cases f with
      | nil => simp
      | cons a t => simp [List.dropLast_concat]
    rw [hdrop]
    simp

/-- C3. The decoder is not total: on a buffer whose scanned portion ends
in `0xDB` the source reads past the end of the buffer (`IndexError`),
although its own comment says the scan stops one byte early; an invalid
`0xDB xx` pair strictly inside the buffer is replaced by a single `0xDB`
as documented. -/
theorem unescape_msg_trailing_db_aborts :
    unescape_msg [0xdb] 1 = none
      ∧ unescape_msg [0xc0, 0xdb, 0x07, 0x00, 0xc0] 5 = some [0xdb, 0x00] := by
  constructor <;> rfl

/-! ## 4.G Allocator budget (`TWCMaster`, lines 1136-1205) -/

/-- The fields of class `TWCMaster` the budget computation reads.  The
`consumptionValues` / `generationValues` dicts map a source name to its
latest watt sample. -/
structure TWCMaster where
  consumptionValues : List (String × ℚ)
  generationValues : List (String × ℚ)
  subtractChargerLoad : Bool
  totalAmpsInUse : ℚ

/-- Method `TWCMaster.getChargerLoad` (lines 1148-1151). -/
def getChargerLoad (m : TWCMaster) : ℚ :=
  m.totalAmpsInUse * 240

/-- Method `TWCMaster.getConsumption` (lines 1153-1162): sum of all consumption
sources, clamped at zero. -/
def getConsumption (m : TWCMaster) : ℚ :=
  let consumptionVal := (m.consumptionValues.map Prod.snd).sum
  if consumptionVal < 0 then 0 else consumptionVal

/-- Method `TWCMaster.getGeneration` (lines 1164-1174): sum of all generation
sources, clamped at zero. -/
def getGeneration (m : TWCMaster) : ℚ :=
  let generationVal := (m.generationValues.map Prod.snd).sum
  if generationVal < 0 then 0 else generationVal

/-- Method `TWCMaster.getGenerationOffset` (lines 1176-1185): consumption minus
the charger's own load when `subtractChargerLoad` is set, clamped at
zero. -/
def getGenerationOffset (m : TWCMaster) : ℚ :=
  let generationOffset :=
    getConsumption m - (if m.subtractChargerLoad then getChargerLoad m else 0)
  if generationOffset < 0 then 0 else generationOffset

/-- Method `TWCMaster.getMaxAmpsToDivideAmongSlaves` (lines 1187-1205): the
zero-clamped surplus watts divided by 240 volts. -/
def getMaxAmpsToDivideAmongSlaves (m : TWCMaster) : ℚ :=
  let solarW := getGeneration m - getGenerationOffset m
  (if solarW < 0 then 0 else solarW) / 240

theorem neg_clamp_eq_max (x : ℚ) : (if x < 0 then 0 else x) = max 0 x := by
  rcases le_or_lt 0 x with h | h
  · rw [if_neg (not_lt.mpr h), max_eq_right h]
  · rw [if_pos h, max_eq_left h.le]

/-- C5. The budget is exactly
`max(0, max(0, ΣG) - max(0, max(0, ΣC) - (subtract ? T*240 : 0))) / 240`
in the generation sum, consumption sum, charger-load flag and
total-amps-in-use. -/
theorem getMaxAmpsToDivideAmongSlaves_closed_form (m : TWCMaster) :
    getMaxAmpsToDivideAmongSlaves m =
      max 0 (max 0 ((m.generationValues.map Prod.snd).sum)
          - max 0 (max 0 ((m.consumptionValues.map Prod.snd).sum)
              - (if m.subtractChargerLoad then m.totalAmpsInUse * 240 else 0)))
        / 240 := by
  unfold getMaxAmpsToDivideAmongSlaves getGenerationOffset getGeneration
    getConsumption getChargerLoad
  simp only [neg_clamp_eq_max]

/-! ## 4.D Slave registry (`new_slave` / `delete_slave`, lines 452-484) -/

/-- A TWC identifier: two opaque bytes. -/
abbrev TwcId := Nat × Nat

/-- The per-slave session fields this development reads or writes. -/
structure TWCSlave where
  TWCID : TwcId
  maxAmps : ℚ
  protocolVersion : Nat
  minAmpsTWCSupports : Nat
  wiringMaxAmps : ℚ
  timeLastRx : ℚ
  reportedAmpsActual : ℚ
  lastAmpsOffered : ℚ
  deriving DecidableEq

/-- Modelled from the spec: the `TWCSlave` constructor lives in
`lib/TWCManager/TWCSlave.py`, which is not part of this tree.  Per §3 the
session starts from the operator-configured per-outlet ceiling as
`wiringMaxAmps`; the defaults `protocolVersion = 1` and
`minAmpsTWCSupports = 6` are exactly the values the link-ready handler
(lines 1853-1859) tests for before inferring the version from the frame
length. -/
def TWCSlave.init (id : TwcId) (maxAmps wiringMaxAmpsPerTWC now : ℚ) : TWCSlave :=
  { TWCID := id, maxAmps := maxAmps, protocolVersion := 1,
    minAmpsTWCSupports := 6, wiringMaxAmps := wiringMaxAmpsPerTWC,
    timeLastRx := now, reportedAmpsActual := 0, lastAmpsOffered := 0 }

/-- The two global views of the registry: the dict `slaveTWCs` and the
ordered list `slaveTWCRoundRobin`.  In Python both hold references to the
same session objects, so an update through either view is visible in
both; here every update is applied to both views. -/
structure Registry where
  slaveTWCs : List (TwcId × TWCSlave)
  slaveTWCRoundRobin : List TWCSlave
  deriving DecidableEq

/-- Dict lookup `slaveTWCs[newSlaveID]` (line 456). -/
def Registry.lookup (r : Registry) (id : TwcId) : Option TWCSlave :=
  (r.slaveTWCs.find? (fun p => p.1 = id)).map Prod.snd

/-- Function `delete_slave` (lines 474-484): remove the first round-robin entry
carrying the id, and drop the dict binding if present. -/
def delete_slave (r : Registry) (deleteSlaveID : TwcId) : Registry :=
  { slaveTWCRoundRobin :=
      r.slaveTWCRoundRobin.eraseP (fun s => s.TWCID = deleteSlaveID),
    slaveTWCs := r.slaveTWCs.eraseP (fun p => p.1 = deleteSlaveID) }

/-- Function `new_slave` (lines 452-472): return the stored session when the id is
already known; otherwise construct a session, add it to both views, and
if that leaves more than 3 round-robin entries evict the oldest (the head
of the list) via `delete_slave`. -/
def new_slave (r : Registry) (newSlaveID : TwcId)
    (maxAmps wiringMaxAmpsPerTWC now : ℚ) : TWCSlave × Registry :=
  match r.lookup newSlaveID with
  | some slaveTWC => (slaveTWC, r)
  | none =>
      let slaveTWC := TWCSlave.init newSlaveID maxAmps wiringMaxAmpsPerTWC now
      let r1 : Registry :=
        { slaveTWCs := r.slaveTWCs ++ [(newSlaveID, slaveTWC)],
          slaveTWCRoundRobin := r.slaveTWCRoundRobin ++ [slaveTWC] }
      if 3 < r1.slaveTWCRoundRobin.length then
        match r1.slaveTWCRoundRobin with
        | [] => (slaveTWC, r1)
        | oldest :: _ => (slaveTWC, delete_slave r1 oldest.TWCID)
      else (slaveTWC, r1)

/-- Well-formedness of the registry (§4.D invariants): the dict keys, in
insertion order, are exactly the round-robin ids, and the ids are
distinct. -/
def Registry.wf (r : Registry) : Prop :=
  r.slaveTWCs.map Prod.fst = r.slaveTWCRoundRobin.map TWCSlave.TWCID
    ∧ (r.slaveTWCRoundRobin.map TWCSlave.TWCID).Nodup

instance (r : Registry) : Decidable r.wf := by
  unfold Registry.wf
  infer_instance

theorem eraseP_fst_comm (l : List (TwcId × TWCSlave)) (id : TwcId) :
    (l.eraseP (fun p => p.1 = id)).map Prod.fst
      = (l.map Prod.fst).eraseP (fun k => k = id) := by
  induction l with
  | nil => rfl
  | cons p t ih =>
      by_cases h : p.1 = id
      · rw [List.eraseP_cons_of_pos (by simp [h]), List.map_cons,
          List.eraseP_cons_of_pos (by simp [h])]
      · rw [List.eraseP_cons_of_neg (by simp [h]), List.map_cons, List.map_cons,
          List.eraseP_cons_of_neg (by simp [h]), ih]

theorem eraseP_twcid_comm (l : List TWCSlave) (id : TwcId) :
    (l.eraseP (fun s => s.TWCID = id)).map TWCSlave.TWCID
      = (l.map TWCSlave.TWCID).eraseP (fun k => k = id) := by
  induction l with
  | nil => rfl
  | cons s t ih =>
      by_cases h : s.TWCID = id
      · rw [List.eraseP_cons_of_pos (by simp [h]), List.map_cons,
          List.eraseP_cons_of_pos (by simp [h])]
      · rw [List.eraseP_cons_of_neg (by simp [h]), List.map_cons, List.map_cons,
          List.eraseP_cons_of_neg (by simp [h]), ih]

/-- Deletion preserves well-formedness of the registry. -/
theorem delete_slave_wf (r : Registry) (id : TwcId) (hwf : r.wf) :
    (delete_slave r id).wf := by
  obtain ⟨hkeys, hnodup⟩ := hwf
  constructor
  · show (r.slaveTWCs.eraseP _).map Prod.fst = (r.slaveTWCRoundRobin.eraseP _).map _
    rw [eraseP_fst_comm, eraseP_twcid_comm, hkeys]
  · show ((r.slaveTWCRoundRobin.eraseP _).map TWCSlave.TWCID).Nodup
    rw [eraseP_twcid_comm]
    exact (List.eraseP_sublist _).nodup hnodup

/-- An id is absent from the dict exactly when `lookup` misses. -/
theorem lookup_none_not_mem (r : Registry) (id : TwcId)
    (h : r.lookup id = none) : id ∉ r.slaveTWCs.map Prod.fst := by
  unfold Registry.lookup at h
  rw [Option.map_eq_none', List.find?_eq_none] at h
  intro hmem
  obtain ⟨p, hp, hfst⟩ := List.mem_map.mp hmem
  exact absurd (by simp [hfst]) (h p hp)

/-- C10. Calling `new_slave` with an id already in the registry returns
the stored session and leaves the whole registry — dict, round-robin
order, and every session's fields, including the originally recorded
`maxAmps` — unchanged; the advertised `maxAmps` argument is ignored. -/
theorem new_slave_existing_id_noop (r : Registry) (id : TwcId) (s : TWCSlave)
    (maxAmps wiringMaxAmpsPerTWC now : ℚ) (h : r.lookup id = some s) :
    new_slave r id maxAmps wiringMaxAmpsPerTWC now = (s, r) := by
  unfold new_slave
  rw [h]

theorem new_slave_existing_id_noop_witness :
    (Registry.lookup
        ⟨[((0xab, 0xcd), TWCSlave.init (0xab, 0xcd) 80 40 5)],
          [TWCSlave.init (0xab, 0xcd) 80 40 5]⟩ (0xab, 0xcd)
        = some (TWCSlave.init (0xab, 0xcd) 80 40 5))
      ∧ new_slave
          ⟨[((0xab, 0xcd), TWCSlave.init (0xab, 0xcd) 80 40 5)],
            [TWCSlave.init (0xab, 0xcd) 80 40 5]⟩ (0xab, 0xcd) 32 24 9
        = (TWCSlave.init (0xab, 0xcd) 80 40 5,
            ⟨[((0xab, 0xcd), TWCSlave.init (0xab, 0xcd) 80 40 5)],
              [TWCSlave.init (0xab, 0xcd) 80 40 5]⟩) :=
  ⟨by decide,
    new_slave_existing_id_noop _ (0xab, 0xcd) _ 32 24 9 (by decide)⟩

/-- C6. After `new_slave` returns the registry holds at most 3 sessions
and stays well-formed (dict and round-robin list keep identical
membership); when a fresh id is added to a registry already holding 3,
the oldest session — the head of the round-robin list — is evicted: the
resulting ids are the old tail's ids followed by the new id, and the old
head's id is gone. -/
theorem new_slave_at_most_three (r : Registry) (id : TwcId)
    (maxAmps wiringMaxAmpsPerTWC now : ℚ)
    (hwf : r.wf) (hlen : r.slaveTWCRoundRobin.length ≤ 3) :
    ((new_slave r id maxAmps wiringMaxAmpsPerTWC now).2.slaveTWCRoundRobin.length ≤ 3
      ∧ (new_slave r id maxAmps wiringMaxAmpsPerTWC now).2.wf)
    ∧ (r.lookup id = none → r.slaveTWCRoundRobin.length = 3 →
        ∀ oldest rrt, r.slaveTWCRoundRobin = oldest :: rrt →
          (new_slave r id maxAmps wiringMaxAmpsPerTWC now).2.slaveTWCRoundRobin.map
              TWCSlave.TWCID
            = rrt.map TWCSlave.TWCID ++ [id]
          ∧ oldest.TWCID
              ∉ (new_slave r id maxAmps wiringMaxAmpsPerTWC now).2.slaveTWCRoundRobin.map
                  TWCSlave.TWCID) := by
  obtain ⟨hkeys, hnodup⟩ := hwf
  cases hl : r.lookup id with
  | some s =>
      refine ⟨?_, ?_⟩
      · rw [new_slave, hl]
        exact ⟨hlen, hkeys, hnodup⟩
      · intro hnone
        exact absurd hnone (by simp)
  | none =>
      have hidfresh : id ∉ r.slaveTWCRoundRobin.map TWCSlave.TWCID := by
        rw [← hkeys]
        exact lookup_none_not_mem r id hl
      by_cases hfull : r.slaveTWCRoundRobin.length = 3
      · -- the add pushes the list to 4 entries and the head is evicted
        obtain ⟨oldest, rrt, hrr⟩ :
            ∃ oldest rrt, r.slaveTWCRoundRobin = oldest :: rrt := by
          cases hc : r.slaveTWCRoundRobin with
          | nil => rw [hc] at hfull; simp at hfull
          | cons a t => exact ⟨a, t, rfl⟩
        have hres :
            (new_slave r id maxAmps wiringMaxAmpsPerTWC now).2
              = delete_slave
                  ⟨r.slaveTWCs ++ [(id, TWCSlave.init id maxAmps wiringMaxAmpsPerTWC now)],
                    r.slaveTWCRoundRobin
                      ++ [TWCSlave.init id maxAmps wiringMaxAmpsPerTWC now]⟩
                  oldest.TWCID := by
          rw [new_slave, hl]
          simp only [hrr, List.cons_append, List.length_cons, List.length_append]
          rw [if_pos (by rw [hrr] at hfull; simp at hfull; omega)]
        have hmap :
            (new_slave r id maxAmps wiringMaxAmpsPerTWC now).2.slaveTWCRoundRobin.map
                TWCSlave.TWCID
              = rrt.map TWCSlave.TWCID ++ [id] := by
          rw [hres]
          show ((r.slaveTWCRoundRobin
              ++ [TWCSlave.init id maxAmps wiringMaxAmpsPerTWC now]).eraseP _).map _ = _
          rw [hrr, List.cons_append, List.eraseP_cons_of_pos (by simp)]
          simp [TWCSlave.init]
        have hwfres : (new_slave r id maxAmps wiringMaxAmpsPerTWC now).2.wf := by
          rw [hres]
          apply delete_slave_wf
          constructor
          · show (r.slaveTWCs ++ _).map Prod.fst = (r.slaveTWCRoundRobin ++ _).map _
            rw [List.map_append, List.map_append, hkeys]
            rfl
          · show ((r.slaveTWCRoundRobin ++ _).map TWCSlave.TWCID).Nodup
            rw [List.map_append]
            simp only [List.map_cons, List.map_nil]
            rw [List.nodup_append]
            exact ⟨hnodup, List.nodup_singleton _,
              by simpa [TWCSlave.init] using fun hmem => hidfresh hmem⟩
        refine ⟨⟨?_, hwfres⟩, ?_⟩
        · have h1 : ((new_slave r id maxAmps wiringMaxAmpsPerTWC now).2.slaveTWCRoundRobin.map
              TWCSlave.TWCID).length = rrt.length + 1 := by
            rw [hmap]; simp
          rw [List.length_map] at h1
          have hrrt : rrt.length = 2 := by
            rw [hrr] at hfull
            simp only [List.length_cons] at hfull
            omega
          omega
        · intro _ _ oldest2 rrt2 hrr2
          rw [hrr] at hrr2
          injection hrr2 with he1 he2
          subst he1; subst he2
          refine ⟨hmap, ?_⟩
          rw [hmap]
          have hoNotTail : oldest.TWCID ∉ rrt.map TWCSlave.TWCID := by
            rw [hrr] at hnodup
            simp only [List.map_cons] at hnodup
            exact (List.nodup_cons.mp hnodup).1
          have hoNotNew : oldest.TWCID ≠ id := by
            intro hcontra
            apply hidfresh
            rw [hrr, ← hcontra]
            simp
          simp only [List.mem_append, List.mem_singleton]
          rintro (hc | hc)
          · exact hoNotTail hc
          · exact hoNotNew hc
      · -- the registry had at most 2 entries: the add keeps both views aligned
        have hlt : r.slaveTWCRoundRobin.length ≤ 2 := by omega
        have hres :
            (new_slave r id maxAmps wiringMaxAmpsPerTWC now).2
              = ⟨r.slaveTWCs ++ [(id, TWCSlave.init id maxAmps wiringMaxAmpsPerTWC now)],
                  r.slaveTWCRoundRobin
                    ++ [TWCSlave.init id maxAmps wiringMaxAmpsPerTWC now]⟩ := by
          rw [new_slave, hl]
          simp only [List.length_append, List.length_singleton]
          rw [if_neg (by omega)]
        refine ⟨⟨?_, ?_⟩, ?_⟩
        · rw [hres]
          simp only [List.length_append, List.length_singleton]
          omega
        · rw [hres]
          constructor
          · show (r.slaveTWCs ++ _).map Prod.fst = (r.slaveTWCRoundRobin ++ _).map _
            rw [List.map_append, List.map_append, hkeys]
            rfl
          · show ((r.slaveTWCRoundRobin ++ _).map TWCSlave.TWCID).Nodup
            rw [List.map_append]
            simp only [List.map_cons, List.map_nil]
            rw [List.nodup_append]
            exact ⟨hnodup, List.nodup_singleton _,
              by simpa [TWCSlave.init] using fun hmem => hidfresh hmem⟩
        · intro _ hc
          exact absurd hc hfull

/-- A concrete 3-slave registry used to instantiate the registry
theorems. -/
def slaveA1 : TWCSlave := TWCSlave.init (1, 1) 80 40 0
def slaveA2 : TWCSlave := TWCSlave.init (2, 2) 80 40 0
def slaveA3 : TWCSlave := TWCSlave.init (3, 3) 32 40 0

def regA : Registry :=
  ⟨[((1, 1), slaveA1), ((2, 2), slaveA2), ((3, 3), slaveA3)],
    [slaveA1, slaveA2, slaveA3]⟩

theorem new_slave_at_most_three_witness :
    (((new_slave regA (4, 4) 32 40 7).2.slaveTWCRoundRobin.length ≤ 3
        ∧ (new_slave regA (4, 4) 32 40 7).2.wf)
      ∧ ((new_slave regA (4, 4) 32 40 7).2.slaveTWCRoundRobin.map TWCSlave.TWCID
            = [slaveA2, slaveA3].map TWCSlave.TWCID ++ [(4, 4)]
          ∧ slaveA1.TWCID
              ∉ (new_slave regA (4, 4) 32 40 7).2.slaveTWCRoundRobin.map
                  TWCSlave.TWCID)) :=
  have h := new_slave_at_most_three regA (4, 4) 32 40 7 (by decide) (by decide)
  ⟨h.1, h.2 (by decide) (by decide) slaveA1 [slaveA2, slaveA3] rfl⟩

/-! ## 4.E/4.F Heartbeat round-robin and idle eviction
(main loop, lines 1405-1427) -/

/-- The loop state the heartbeat branch reads and writes. -/
structure HeartbeatLoopState where
  registry : Registry
  idxSlaveToSendNextHeartbeat : Nat
  timeLastTx : ℚ
  deriving DecidableEq

/-- One execution of the heartbeat branch of the main loop (lines
1405-1427): when at least a second has passed since the last TX and the
registry is non-empty, look at the slave at the round-robin cursor; if it
has been silent for more than 26 seconds, evict it and send nothing,
otherwise send it a master heartbeat (which records the TX time, line
293); afterwards advance the cursor and wrap it against the current list
length.  The returned `Option TwcId` is the id the heartbeat was sent
to.  (An out-of-range cursor would raise `IndexError` in the source; it
is returned unchanged here.) -/
def heartbeat_tick (now : ℚ) (st : HeartbeatLoopState) :
    HeartbeatLoopState × Option TwcId :=
  if 1 ≤ now - st.timeLastTx then
    if 0 < st.registry.slaveTWCRoundRobin.length then
      match st.registry.slaveTWCRoundRobin[st.idxSlaveToSendNextHeartbeat]? with
      | none => (st, none)
      | some slaveTWC =>
          if 26 < now - slaveTWC.timeLastRx then
            let reg := delete_slave st.registry slaveTWC.TWCID
            let idx := st.idxSlaveToSendNextHeartbeat + 1
            ({ registry := reg,
               idxSlaveToSendNextHeartbeat :=
                 if reg.slaveTWCRoundRobin.length ≤ idx then 0 else idx,
               timeLastTx := st.timeLastTx }, none)
          else
            let idx := st.idxSlaveToSendNextHeartbeat + 1
            ({ registry := st.registry,
               idxSlaveToSendNextHeartbeat :=
                 if st.registry.slaveTWCRoundRobin.length ≤ idx then 0 else idx,
               timeLastTx := now }, some slaveTWC.TWCID)
    else (st, none)
  else (st, none)

theorem not_mem_eraseP_self (a : TwcId) (l : List TwcId) (h : l.Nodup) :
    a ∉ l.eraseP (fun k => k = a) := by
  induction l with
  | nil => simp
  | cons b t ih =>
      rcases List.nodup_cons.mp h with ⟨hb, ht⟩
      by_cases hba : b = a
      · rw [List.eraseP_cons_of_pos (by simp [hba])]
        rw [hba] at hb
        exact hb
      · rw [List.eraseP_cons_of_neg (by simp [hba])]
        simp only [List.mem_cons]
        rintro (rfl | hmem)
        · exact hba rfl
        · exact ih ht hmem

def slaveStale : TWCSlave := TWCSlave.init (2, 2) 80 40 0

def hbStateC : HeartbeatLoopState :=
  ⟨⟨[((1, 1), TWCSlave.init (1, 1) 80 40 100), ((2, 2), slaveStale)],
      [TWCSlave.init (1, 1) 80 40 100, slaveStale]⟩, 0, 0⟩

/-- C4 counterexample.  In `hbStateC` at time 100 the slave `(2,2)` has
been silent for 100 s > 26 s, a heartbeat tick is due and runs, yet after
the tick `(2,2)` is still in the registry: the loop inspects only the
slave at the round-robin cursor (here `(1,1)`), so a stale slave
elsewhere in the list survives the tick. -/
theorem heartbeat_tick_stale_survives :
    (26 < (100 : ℚ) - slaveStale.timeLastRx)
      ∧ (1 : ℚ) ≤ 100 - hbStateC.timeLastTx
      ∧ (2, 2) ∈ (heartbeat_tick 100 hbStateC).1.registry.slaveTWCRoundRobin.map
          TWCSlave.TWCID := by
  refine ⟨by norm_num [slaveStale, TWCSlave.init], by norm_num [hbStateC], ?_⟩
  norm_num [heartbeat_tick, hbStateC, slaveStale, TWCSlave.init]

/-- C4 amended.  When a heartbeat tick fires (≥ 1 s since the last TX)
and the slave at the round-robin cursor has been silent for more than
26 seconds, that slave is evicted from the registry by the tick and no
heartbeat is sent. -/
theorem heartbeat_tick_evicts_cursor_slave (now : ℚ) (st : HeartbeatLoopState)
    (slaveTWC : TWCSlave)
    (htx : 1 ≤ now - st.timeLastTx)
    (hget : st.registry.slaveTWCRoundRobin[st.idxSlaveToSendNextHeartbeat]?
        = some slaveTWC)
    (hstale : 26 < now - slaveTWC.timeLastRx)
    (hnodup : (st.registry.slaveTWCRoundRobin.map TWCSlave.TWCID).Nodup) :
    slaveTWC.TWCID
        ∉ (heartbeat_tick now st).1.registry.slaveTWCRoundRobin.map TWCSlave.TWCID
      ∧ (heartbeat_tick now st).2 = none := by
  have hlen : 0 < st.registry.slaveTWCRoundRobin.length := by
    by_contra hge
    rw [List.getElem?_eq_none (by omega)] at hget
    exact absurd hget (by simp)
  unfold heartbeat_tick
  rw [if_pos htx, if_pos hlen, hget]
  dsimp only
  rw [if_pos hstale]
  constructor
  · show slaveTWC.TWCID ∉ (delete_slave st.registry slaveTWC.TWCID).slaveTWCRoundRobin.map
        TWCSlave.TWCID
    show slaveTWC.TWCID ∉ (st.registry.slaveTWCRoundRobin.eraseP _).map TWCSlave.TWCID
    rw [eraseP_twcid_comm]
    exact not_mem_eraseP_self _ _ hnodup
  · rfl

/-- A state whose round-robin cursor points at the stale slave. -/
def hbStateW : HeartbeatLoopState :=
  ⟨⟨[((2, 2), slaveStale), ((1, 1), TWCSlave.init (1, 1) 80 40 100)],
      [slaveStale, TWCSlave.init (1, 1) 80 40 100]⟩, 0, 50⟩

theorem heartbeat_tick_evicts_cursor_slave_witness :
    slaveStale.TWCID
        ∉ (heartbeat_tick 100 hbStateW).1.registry.slaveTWCRoundRobin.map
            TWCSlave.TWCID
      ∧ (heartbeat_tick 100 hbStateW).2 = none :=
  heartbeat_tick_evicts_cursor_slave 100 hbStateW slaveStale (by norm_num [hbStateW])
    rfl (by norm_num [slaveStale, TWCSlave.init]) (by decide)

/-! ## Slave link-ready handling (main loop, lines 1795-1885) -/

/-- The globals the link-ready branch reads and writes. -/
structure MasterState where
  registry : Registry
  fakeTWCID : TwcId
  spikeAmpsToCancel6ALimit : ℚ
  numInitMsgsToSend : Nat
  wiringMaxAmpsPerTWC : ℚ
  now : ℚ
  deriving DecidableEq

/-- The regex match of line 1795
(`^\xfd\xe2(..)(.)(..)\x00\x00\x00\x00\x00\x00.+\Z`) together with the
field extraction of lines 1809-1811: sender id, sign byte, and the
advertised `maxAmps` decoded as big-endian centiamperes over 100. -/
def parseSlaveLinkready (msg : List Nat) : Option (TwcId × Nat × ℚ) :=
  match msg with
  | 0xfd :: 0xe2 :: s1 :: s2 :: sgn :: a1 :: a2
      :: 0 :: 0 :: 0 :: 0 :: 0 :: 0 :: rest =>
      if rest.isEmpty then none
      else some ((s1, s2), sgn, (((a1 <<< 8) + a2 : ℕ) : ℚ) / 100)
  | _ => none

/-- Write an updated session object back through both registry views
(in Python the views alias one mutable object). -/
def Registry.updateSlave (r : Registry) (id : TwcId) (s : TWCSlave) : Registry :=
  { slaveTWCs := r.slaveTWCs.map (fun p => if p.1 = id then (p.1, s) else p),
    slaveTWCRoundRobin :=
      r.slaveTWCRoundRobin.map (fun t => if t.TWCID = id then s else t) }

/-- The mutations lines 1853-1884 apply to the session object: infer the
protocol version from the frame length when the session still carries the
constructor defaults, cut `wiringMaxAmps` to a quarter of the advertised
`maxAmps` when it exceeds it, and stamp `timeLastRx`. -/
def linkreadySessionUpdate (slaveTWC : TWCSlave) (msgLen : Nat)
    (maxAmps now : ℚ) : TWCSlave :=
  let slaveTWC1 :=
    if slaveTWC.protocolVersion = 1 ∧ slaveTWC.minAmpsTWCSupports = 6 then
      if msgLen = 14 then
        { slaveTWC with protocolVersion := 1, minAmpsTWCSupports := 5 }
      else if msgLen = 16 then
        { slaveTWC with protocolVersion := 2, minAmpsTWCSupports := 6 }
      else slaveTWC
    else slaveTWC
  let slaveTWC2 :=
    if maxAmps < slaveTWC1.wiringMaxAmps then
      { slaveTWC1 with wiringMaxAmps := maxAmps / 4 }
    else slaveTWC1
  { slaveTWC2 with timeLastRx := now }

/-- The slave link-ready branch of the RX dispatcher (lines 1795-1885):
set the spike-override amperage from the advertised `maxAmps`, restart
the init burst when the sender claims our own id, otherwise find or
create the session, apply the session mutations and write them back.
(The master heartbeat TX of line 1885 is outside this model.)  The second
component is the session object after processing, when one exists. -/
def processSlaveLinkready (st : MasterState) (msg : List Nat) :
    MasterState × Option TWCSlave :=
  match parseSlaveLinkready msg with
  | none => (st, none)
  | some (senderID, _sgn, maxAmps) =>
      let st1 :=
        { st with spikeAmpsToCancel6ALimit := if 80 ≤ maxAmps then 21 else 16 }
      if senderID = st1.fakeTWCID then
        ({ st1 with numInitMsgsToSend := 10 }, none)
      else
        let res := new_slave st1.registry senderID maxAmps
          st1.wiringMaxAmpsPerTWC st1.now
        let slaveTWC := linkreadySessionUpdate res.1 msg.length maxAmps st1.now
        ({ st1 with registry := res.2.updateSlave senderID slaveTWC },
          some slaveTWC)

theorem linkreadySessionUpdate_wiring (slaveTWC : TWCSlave) (msgLen : Nat)
    (maxAmps now : ℚ) :
    (linkreadySessionUpdate slaveTWC msgLen maxAmps now).wiringMaxAmps
      = if maxAmps < slaveTWC.wiringMaxAmps then maxAmps / 4
        else slaveTWC.wiringMaxAmps := by
  unfold linkreadySessionUpdate
  dsimp only
  split_ifs <;> rfl

/-- C7. After any slave link-ready frame advertising `maxAmps = a` is
processed, the spike-override amperage is 21 when `a ≥ 80` and 16
otherwise, whatever the rest of the state. -/
theorem processSlaveLinkready_spike (st : MasterState) (msg : List Nat)
    (senderID : TwcId) (sgn : Nat) (a : ℚ)
    (h : parseSlaveLinkready msg = some (senderID, sgn, a)) :
    (processSlaveLinkready st msg).1.spikeAmpsToCancel6ALimit
      = if 80 ≤ a then 21 else 16 := by
  unfold processSlaveLinkready
  rw [h]
  dsimp only
  by_cases hid : senderID = st.fakeTWCID
  · rw [if_pos hid]
  · rw [if_neg hid]

/-- A link-ready frame advertising 80.00 A from slave `ABCD`. -/
def msgHi : List Nat :=
  [0xfd, 0xe2, 0xab, 0xcd, 0x77, 0x1f, 0x40, 0, 0, 0, 0, 0, 0, 0xcc]

/-- A link-ready frame advertising 32.00 A from slave `ABCD`. -/
def msgLo : List Nat :=
  [0xfd, 0xe2, 0xab, 0xcd, 0x77, 0x0c, 0x80, 0, 0, 0, 0, 0, 0, 0xcc]

/-- An idle master state: empty registry, own id `7777`, configured
per-outlet wiring limit 40 A. -/
def mstC : MasterState :=
  { registry := ⟨[], []⟩, fakeTWCID := (0x77, 0x77),
    spikeAmpsToCancel6ALimit := 0, numInitMsgsToSend := 0,
    wiringMaxAmpsPerTWC := 40, now := 0 }

theorem processSlaveLinkready_spike_witness :
    parseSlaveLinkready msgHi = some ((0xab, 0xcd), 0x77, 80)
      ∧ (processSlaveLinkready mstC msgHi).1.spikeAmpsToCancel6ALimit
          = if (80 : ℚ) ≤ 80 then 21 else 16 :=
  ⟨by norm_num [parseSlaveLinkready, msgHi, Nat.shiftLeft_eq],
    processSlaveLinkready_spike mstC msgHi (0xab, 0xcd) 0x77 80
      (by norm_num [parseSlaveLinkready, msgHi, Nat.shiftLeft_eq])⟩

/-- C2 counterexample.  Processing `msgLo` (advertised `maxAmps` 32 A)
against `mstC` (configured `wiringMaxAmps` 40 A exceeds it) leaves the
session with `wiringMaxAmps = 8 = 32/4`, not the advertised 32: line
1875 assigns `maxAmps / 4`, not `maxAmps`. -/
theorem processSlaveLinkready_cap_cex :
    parseSlaveLinkready msgLo = some ((0xab, 0xcd), 0x77, 32)
      ∧ (new_slave mstC.registry (0xab, 0xcd) 32 mstC.wiringMaxAmpsPerTWC
          mstC.now).1.wiringMaxAmps = 40
      ∧ (processSlaveLinkready mstC msgLo).2.map TWCSlave.wiringMaxAmps = some 8
      ∧ ¬ (processSlaveLinkready mstC msgLo).2.map TWCSlave.wiringMaxAmps
            = some 32 := by
  refine ⟨by norm_num [parseSlaveLinkready, msgLo, Nat.shiftLeft_eq], ?_, ?_, ?_⟩
  · norm_num [new_slave, Registry.lookup, TWCSlave.init, mstC]
  · norm_num [processSlaveLinkready, parseSlaveLinkready, msgLo, mstC,
      new_slave, Registry.lookup, TWCSlave.init, linkreadySessionUpdate,
      Nat.shiftLeft_eq]
  · norm_num [processSlaveLinkready, parseSlaveLinkready, msgLo, mstC,
      new_slave, Registry.lookup, TWCSlave.init, linkreadySessionUpdate,
      Nat.shiftLeft_eq]

/-- C2 amended.  When the session's `wiringMaxAmps` exceeds the
advertised `maxAmps`, processing the link-ready sets it to a quarter of
the advertised `maxAmps` (`maxAmps / 4`), not to `maxAmps` itself. -/
theorem processSlaveLinkready_caps_wiring (st : MasterState) (msg : List Nat)
    (senderID : TwcId) (sgn : Nat) (a : ℚ)
    (h : parseSlaveLinkready msg = some (senderID, sgn, a))
    (hid : ¬ senderID = st.fakeTWCID)
    (hcap : a < (new_slave st.registry senderID a st.wiringMaxAmpsPerTWC
        st.now).1.wiringMaxAmps) :
    (processSlaveLinkready st msg).2.map TWCSlave.wiringMaxAmps
      = some (a / 4) := by
  unfold processSlaveLinkready
  rw [h]
  dsimp only
  rw [if_neg hid]
  dsimp only
  rw [Option.map_some']
  rw [linkreadySessionUpdate_wiring]
  rw [if_pos hcap]

theorem processSlaveLinkready_caps_wiring_witness :
    (32 : ℚ) < (new_slave mstC.registry (0xab, 0xcd) 32 mstC.wiringMaxAmpsPerTWC
        mstC.now).1.wiringMaxAmps
      ∧ (processSlaveLinkready mstC msgLo).2.map TWCSlave.wiringMaxAmps
          = some (32 / 4) :=
  ⟨by norm_num [new_slave, Registry.lookup, TWCSlave.init, mstC],
    processSlaveLinkready_caps_wiring mstC msgLo (0xab, 0xcd) 0x77 32
      (by norm_num [parseSlaveLinkready, msgLo, Nat.shiftLeft_eq]) (by decide)
      (by norm_num [new_slave, Registry.lookup, TWCSlave.init, mstC])⟩

/-! ## 6. Web-IPC response path (main loop, lines 1457-1636) -/

/-- The recognized web-UI commands: one constructor per literal dispatch
branch of lines 1477-1609. -/
inductive WebCmd where
  | getStatus
  | setNonScheduledAmps
  | setScheduledAmps
  | setResumeTrackGreenEnergyTime
  | sendTWCMsg
  | getLastTWCMsgResponse
  | carApiEmailPassword
  | setMasterHeartbeatData
  | chargeNow
  | chargeNowCancel
  | dumpState
  | setDebugLevel
  deriving DecidableEq

/-- Variable `numPackets` is initialized to 0 for every request (line 1476) and
assigned only in the `dumpState` branch, as `math.ceil(len/290)`
(line 1605). -/
def numPacketsFor : WebCmd → Nat → Nat
  | WebCmd.dumpState, bodyLen => (bodyLen + 289) / 290
  | _, _ => 0

/-- The response-send logic of lines 1613-1636, returning the data
payloads of the IPC messages put on the queue (each is additionally
prefixed by the echoed 6-byte time/id header, not modelled).  With
`numPackets = 0` a single message truncated to 290 bytes is sent; with
`numPackets > 0` a 1-byte packet-count message is followed by the
290-byte slices `body[i*290 : i*290+290]`. -/
def sendWebResponse (numPackets : Nat) (body : List Nat) : List (List Nat) :=
  if 0 < body.length then
    if numPackets = 0 then
      [body.take 290]
    else
      [numPackets]
        :: (List.range numPackets).map (fun i => (body.drop (i * 290)).take 290)
  else []

/-- The messages the main loop sends for a recognized command and its
response body. -/
def webResponsePackets (cmd : WebCmd) (body : List Nat) : List (List Nat) :=
  sendWebResponse (numPacketsFor cmd body.length) body

/-- The response-body bytes the web server receives: the single message
when no packet count was computed, otherwise the concatenation of the
continuation messages after the count message. -/
def deliveredBody (cmd : WebCmd) (body : List Nat) : List Nat :=
  if numPacketsFor cmd body.length = 0 then (webResponsePackets cmd body).flatten
  else (webResponsePackets cmd body).tail.flatten

theorem take_add_chunk (l : List Nat) (m n : Nat) :
    l.take (m + n) = l.take m ++ (l.drop m).take n := by
  rw [List.take_drop]
  conv_lhs => rw [← List.take_append_drop m (l.take (m + n))]
  rw [List.take_take, min_eq_left (Nat.le_add_right m n)]

theorem chunks_flatten (body : List Nat) (n : Nat) :
    ((List.range n).map (fun i => (body.drop (i * 290)).take 290)).flatten
      = body.take (n * 290) := by
  induction n with
  | zero => simp
  | succ k ih =>
      rw [List.range_succ, List.map_append, List.flatten_append]
      simp only [List.map_cons, List.map_nil, List.flatten_cons, List.flatten_nil]
      rw [ih, List.append_nil,
        show (k + 1) * 290 = k * 290 + 290 by ring, take_add_chunk]

/-- C8 counterexample.  A 291-byte `getStatus` body (reachable: the
`getStatus` reply embeds `str(nonScheduledAmpsMax)`, an unbounded
operator-set integer) is sent as a single message truncated to its first
290 bytes, because only the `dumpState` branch ever sets
`numPackets`. -/
theorem webResponse_truncates_getStatus :
    290 < (List.replicate 291 0x41).length
      ∧ webResponsePackets WebCmd.getStatus (List.replicate 291 0x41)
          = [List.replicate 290 0x41]
      ∧ deliveredBody WebCmd.getStatus (List.replicate 291 0x41)
          ≠ List.replicate 291 0x41 := by
  refine ⟨by simp, ?_, ?_⟩
  · simp [webResponsePackets, numPacketsFor, sendWebResponse,
      List.take_replicate]
  · intro hcontra
    have hlen := congrArg List.length hcontra
    simp [deliveredBody, webResponsePackets, numPacketsFor, sendWebResponse,
      List.take_replicate] at hlen

/-- C8 amended.  Only the `dumpState` command uses the packet-count
scheme: its response of any length is delivered in full as a count
message followed by ⌈len/290⌉ slices of up to 290 bytes; every other
recognized command's response, when longer than 290 bytes, is sent as a
single message truncated to the first 290 bytes. -/
theorem webResponse_dumpState_only_multipacket (cmd : WebCmd) (body : List Nat) :
    deliveredBody WebCmd.dumpState body = body
      ∧ (¬ cmd = WebCmd.dumpState →
          webResponsePackets cmd body = (if 0 < body.length then [body.take 290] else [])
            ∧ (290 < body.length → deliveredBody cmd body = body.take 290)) := by
  constructor
  · by_cases hlen : 0 < body.length
    · have hn : numPacketsFor WebCmd.dumpState body.length = (body.length + 289) / 290 := rfl
      have hpos : 0 < (body.length + 289) / 290 := by
        apply Nat.div_pos <;> omega
      unfold deliveredBody webResponsePackets sendWebResponse
      rw [hn, if_neg (by omega), if_pos hlen, if_neg (by omega)]
      rw [List.tail_cons, chunks_flatten]
      apply List.take_of_length_le
      have hdm := Nat.div_add_mod (body.length + 289) 290
      have hmlt : (body.length + 289) % 290 < 290 := Nat.mod_lt _ (by norm_num)
      nlinarith [hdm, hmlt]
    · have hb : body = [] := List.length_eq_zero.mp (by omega)
      subst hb
      rfl
  · intro hcmd
    have hz : numPacketsFor cmd body.length = 0 := by
      cases cmd <;> first | rfl | exact absurd rfl hcmd
    constructor
    · unfold webResponsePackets sendWebResponse
      rw [hz]
      by_cases hlen : 0 < body.length
      · rw [if_pos hlen, if_pos rfl, if_pos hlen]
      · rw [if_neg hlen, if_neg hlen]
    · intro hlong
      unfold deliveredBody webResponsePackets sendWebResponse
      rw [hz, if_pos rfl, if_pos (by omega), if_pos rfl]
      simp

theorem webResponse_dumpState_only_multipacket_witness :
    deliveredBody WebCmd.dumpState (List.replicate 291 0x41)
        = List.replicate 291 0x41
      ∧ (webResponsePackets WebCmd.setDebugLevel (List.replicate 291 0x41)
            = (if 0 < (List.replicate 291 (0x41 : Nat)).length
               then [(List.replicate 291 (0x41 : Nat)).take 290] else [])
          ∧ deliveredBody WebCmd.setDebugLevel (List.replicate 291 0x41)
              = (List.replicate 291 0x41).take 290) :=
  have h := webResponse_dumpState_only_multipacket WebCmd.setDebugLevel
    (List.replicate 291 0x41)
  ⟨h.1, (h.2 (by decide)).1, (h.2 (by decide)).2 (by simp)⟩

/-! ## `sendTWCMsg` raw-frame filter (lines 243-251 and 1535-1551) -/

/-- Function `trim_pad` (lines 243-251): pad with zero bytes up to `makeLen`,
truncate above it. -/
def trim_pad (s : List Nat) (makeLen : Nat) : List Nat :=
  let padded := s ++ List.replicate (makeLen - s.length) 0
  if makeLen < padded.length then padded.take makeLen else padded

/-- The length the `sendTWCMsg` handler pads to (lines 1538-1540): 15
when no slave is known or the first round-robin slave speaks protocol 2,
else 13. -/
def sendTWCMsgPadLen (slaveTWCRoundRobin : List TWCSlave) : Nat :=
  match slaveTWCRoundRobin with
  | [] => 15
  | s :: _ => if s.protocolVersion = 2 then 15 else 13

/-- The `sendTWCMsg=<hex>` handler (lines 1535-1551): trim or pad the
decoded hex frame, then refuse the potentially bricking type prefixes
`FC 19` / `FC 1A` and the potentially crashing `FB E8` with no TX;
any other frame is passed to `send_msg`.  `some` carries the
transmitted frame. -/
def sendTWCMsgHandler (hexBytes : List Nat)
    (slaveTWCRoundRobin : List TWCSlave) : Option (List Nat) :=
  let twcMsg := trim_pad hexBytes (sendTWCMsgPadLen slaveTWCRoundRobin)
  if twcMsg.take 2 = [0xfc, 0x19] ∨ twcMsg.take 2 = [0xfc, 0x1a] then none
  else if twcMsg.take 2 = [0xfb, 0xe8] then none
  else some twcMsg

/-- C9.  A raw web-requested frame whose trimmed/padded form starts with
`FC 19`, `FC 1A` or `FB E8` is rejected and nothing is transmitted; any
other frame is transmitted as trimmed/padded. -/
theorem sendTWCMsgHandler_filter (hexBytes : List Nat)
    (slaveTWCRoundRobin : List TWCSlave) :
    (((trim_pad hexBytes (sendTWCMsgPadLen slaveTWCRoundRobin)).take 2
          = [0xfc, 0x19]
        ∨ (trim_pad hexBytes (sendTWCMsgPadLen slaveTWCRoundRobin)).take 2
            = [0xfc, 0x1a]
        ∨ (trim_pad hexBytes (sendTWCMsgPadLen slaveTWCRoundRobin)).take 2
            = [0xfb, 0xe8]) →
      sendTWCMsgHandler hexBytes slaveTWCRoundRobin = none)
    ∧ (¬ ((trim_pad hexBytes (sendTWCMsgPadLen slaveTWCRoundRobin)).take 2
            = [0xfc, 0x19]
          ∨ (trim_pad hexBytes (sendTWCMsgPadLen slaveTWCRoundRobin)).take 2
              = [0xfc, 0x1a]
          ∨ (trim_pad hexBytes (sendTWCMsgPadLen slaveTWCRoundRobin)).take 2
              = [0xfb, 0xe8]) →
      sendTWCMsgHandler hexBytes slaveTWCRoundRobin
        = some (trim_pad hexBytes (sendTWCMsgPadLen slaveTWCRoundRobin))) := by
  unfold sendTWCMsgHandler
  dsimp only
  constructor
  · rintro (h | h | h)
    · rw [if_pos (Or.inl h)]
    · rw [if_pos (Or.inr h)]
    · rw [if_neg ?_, if_pos h]
      rintro (hc | hc) <;> rw [hc] at h <;> exact absurd h (by decide)
  · intro h
    push_neg at h
    rw [if_neg (by tauto), if_neg h.2.2]

theorem sendTWCMsgHandler_filter_witness :
    sendTWCMsgHandler [0xfc, 0x19] [] = none
      ∧ sendTWCMsgHandler [0xfb, 0xe0, 0x01] []
          = some (trim_pad [0xfb, 0xe0, 0x01] (sendTWCMsgPadLen [])) :=
  ⟨(sendTWCMsgHandler_filter [0xfc, 0x19] []).1 (Or.inl (by decide)),
    (sendTWCMsgHandler_filter [0xfb, 0xe0, 0x01] []).2 (by decide)⟩

end TWCManager
